import Mathlib

/-!
Shallow embedding of the social-metrics core of the AiSocialMate repository
(`server/social-metrics.ts` and the social-metrics part of `server/storage.ts`).

The TypeScript code is asynchronous but every fetcher performs exactly one
outbound HTTP call; we model the HTTP layer as an oracle (`Env`) mapping the
request (Reddit API URL, or Serper query string) to an outcome, and the
fetchers as total functions of that oracle.  Timestamps (`new Date()` values)
are supplied through the oracle as well.  Thrown JavaScript errors are modelled
by the outcome constructors; the `catch` blocks of the source turn them into
failure records, which our total functions produce directly.
-/

/- ### JS string helpers used by the source -/

/-- Leading-match test of the needle against the haystack, one character at a
time (the building block of the JS `includes` check below). -/
def isPrefixChars : List Char → List Char → Bool
  | [], _ => true
  | _ :: _, [] => false
  | c :: p, x :: s => x = c && isPrefixChars p s

/-- Scan of `isPrefixChars` over every suffix of the haystack. -/
def containsAt (needle : List Char) : List Char → Bool
  | [] => isPrefixChars needle []
  | c :: t => isPrefixChars needle (c :: t) || containsAt needle t

/-- JS `hay.includes(needle)`. -/
def strIncludes (hay needle : String) : Bool :=
  containsAt needle.data hay.data

/-- Split a leading run of decimal digits (the greedy `\d+` of the regexes). -/
def spanDigits : List Char → List Char × List Char
  | [] => ([], [])
  | c :: t =>
    if c.isDigit then
      let p := spanDigits t
      (c :: p.1, p.2)
    else ([], c :: t)

theorem spanDigits_snd_length (l : List Char) : (spanDigits l).2.length ≤ l.length := by
  induction l with
  | nil => simp [spanDigits]
  | cons c t ih =>
    by_cases h : c.isDigit
    · simp only [spanDigits, h, if_pos]
      exact Nat.le_succ_of_le ih
    · simp [spanDigits, h]

/-- Match a literal character sequence, returning the rest on success. -/
def stripLit : List Char → List Char → Option (List Char)
  | [], s => some s
  | _ :: _, [] => none
  | c :: p, x :: s => if x = c then stripLit p s else none

/-- Match a literal case-insensitively (the `i` regex flag; `lit` is given in
lower case), returning the rest on success. -/
def stripLitCI : List Char → List Char → Option (List Char)
  | [], s => some s
  | _ :: _, [] => none
  | c :: p, x :: s => if x.toLower = c then stripLitCI p s else none

/-- The JS `\s` character class (ASCII part plus the common Unicode spaces). -/
def jsWs (c : Char) : Bool :=
  c = ' ' || c = '\t' || c = '\n' || c = '\r' || c = '\x0b' || c = '\x0c' ||
  c = '\u00A0' || c = '\u2028' || c = '\u2029' || c = '\uFEFF'

/-- Greedy `(?:,\d+)*` with an explicit fuel so the recursion is structural
and kernel-reducible: consume comma-digit groups, returning the consumed
characters and the rest.  Greediness is faithful to the regex because a
relinquished group would leave a comma where `\s`, a letter, or the pattern
end is required, so backtracking can never succeed where the greedy match
fails. -/
def commaGroupsF : Nat → List Char → List Char × List Char
  | _, [] => ([], [])
  | 0, s => ([], s)
  | Nat.succ fuel, c :: t =>
    if c = ',' then
      let p := spanDigits t
      if p.1.isEmpty then ([], c :: t)
      else
        let q := commaGroupsF fuel p.2
        (c :: (p.1 ++ q.1), q.2)
    else ([], c :: t)

/-- Every recursive step of `commaGroupsF` consumes the comma and at least one
digit, so any fuel of at least the input length gives the same (fuel-free)
result: the `0, s` arm is unreachable from `commaGroups`. -/
theorem commaGroupsF_fuel_irrel :
    ∀ fuel fuel2 s, s.length ≤ fuel → s.length ≤ fuel2 →
      commaGroupsF fuel s = commaGroupsF fuel2 s := by
  intro fuel
  induction fuel with
  | zero =>
    intro fuel2 s hs _
    have : s = [] := List.eq_nil_of_length_eq_zero (Nat.le_zero.mp hs)
    subst this
    cases fuel2 <;> rfl
  | succ n ih =>
    intro fuel2 s hs hs2
    cases s with
    | nil => cases fuel2 <;> rfl
    | cons c t =>
      cases fuel2 with
      | zero => exact absurd hs2 (by simp)
      | succ m =>
        simp only [commaGroupsF]
        by_cases hc : c = ','
        · simp only [hc, if_pos]
          by_cases he : (spanDigits t).1.isEmpty
          · simp [he]
          · simp only [he, if_neg, Bool.false_eq_true, not_false_eq_true]
            have hlen : (spanDigits t).2.length ≤ n :=
              le_trans (spanDigits_snd_length t) (by simpa using hs)
            have hlen2 : (spanDigits t).2.length ≤ m :=
              le_trans (spanDigits_snd_length t) (by simpa using hs2)
            rw [ih m (spanDigits t).2 hlen hlen2]
        · simp [hc]

/-- Greedy `(?:,\d+)*`. -/
def commaGroups (s : List Char) : List Char × List Char :=
  commaGroupsF s.length s

/-- Greedy `\d+(?:,\d+)*` at the head of the input: the captured characters and
the rest, or `none` when the input does not start with a digit. -/
def numTok (s : List Char) : Option (List Char × List Char) :=
  let p := spanDigits s
  if p.1.isEmpty then none
  else
    let q := commaGroups p.2
    some (p.1 ++ q.1, q.2)

/-- Attempt `(\d+(?:,\d+)*)\s*WORDs?` (case-insensitive) at the head of the
input, returning capture group 1.  The optional trailing `s?` always matches
and never affects the capture, so it is not represented. -/
def matchNumWordAt (word : List Char) (s : List Char) : Option (List Char) :=
  match numTok s with
  | none => none
  | some (cap, r) =>
    match stripLitCI word (r.dropWhile jsWs) with
    | none => none
    | some _ => some cap

/-- Leftmost-match scan: JS regex `match` tries the pattern at each start
position from the left and returns the first success. -/
def scanMatch (f : List Char → Option (List Char)) : List Char → Option (List Char)
  | [] => f []
  | c :: t =>
    match f (c :: t) with
    | some r => some r
    | none => scanMatch f t

/-- JS `snippet.match(/(\d+(?:,\d+)*)\s*WORDs?/i)`, returning capture group 1. -/
def matchNumWord (word : List Char) (snippet : String) : Option (List Char) :=
  scanMatch (matchNumWordAt word) snippet.data

/-- `capture.replace(/,/g, "")`. -/
def stripCommas (l : List Char) : List Char :=
  l.filter (fun c => c ≠ ',')

/-- `parseInt` on an all-digit string (every use site feeds it a comma-stripped
`\d+(?:,\d+)*` capture, which is all digits and starts with a digit). -/
def parseDigits (l : List Char) : Nat :=
  l.foldl (fun n c => n * 10 + (c.toNat - Char.toNat '0')) 0

/-- The numeric value a `matchNumWord` result contributes:
`m ? parseInt(m[1].replace(/,/g, "")) : 0`. -/
def numOfMatch : Option (List Char) → Int
  | some cap => (parseDigits (stripCommas cap) : Int)
  | none => 0

/- ### URL pattern matches of the source -/

/-- `url.match(/reddit\.com\/r\/[^/]+\/comments\/([^/]+)/)` attempted at the
head of the input: after the literal `reddit.com/r/`, a nonempty run of
non-slash characters, the literal `/comments/`, then capture a nonempty run of
non-slash characters.  Greedy `[^/]+` is faithful: giving characters back
would leave a non-slash character where `/` is required. -/
def matchRedditAt (s : List Char) : Option (List Char) :=
  match stripLit "reddit.com/r/".data s with
  | none => none
  | some s1 =>
    let sub := s1.takeWhile (fun c => c ≠ '/')
    if sub.isEmpty then none
    else
      match stripLit "/comments/".data (s1.dropWhile (fun c => c ≠ '/')) with
      | none => none
      | some s2 =>
        let cap := s2.takeWhile (fun c => c ≠ '/')
        if cap.isEmpty then none else some cap

/-- The Reddit post-id extraction of `getRedditMetrics` (leftmost match). -/
def redditMatch (url : String) : Option (List Char) :=
  scanMatch matchRedditAt url.data

/-- One alternative of the Twitter URL regex: `DOMAIN/[^/]+\/status\/(\d+)`. -/
def matchTwitterAlt (domain : List Char) (s : List Char) : Option (List Char) :=
  match stripLit domain s with
  | none => none
  | some s1 =>
    let user := s1.takeWhile (fun c => c ≠ '/')
    if user.isEmpty then none
    else
      match stripLit "/status/".data (s1.dropWhile (fun c => c ≠ '/')) with
      | none => none
      | some s2 =>
        let p := spanDigits s2
        if p.1.isEmpty then none else some p.1

/-- `url.match(/twitter\.com\/[^/]+\/status\/(\d+)|x\.com\/[^/]+\/status\/(\d+)/)`:
at each position the first alternative is tried before the second, and
`twitterMatch` returns the capture of whichever matched (`m[1] || m[2]`). -/
def matchTwitterAt (s : List Char) : Option (List Char) :=
  match matchTwitterAlt "twitter.com/".data s with
  | some r => some r
  | none => matchTwitterAlt "x.com/".data s

/-- The tweet-id extraction of `getTwitterMetrics` (leftmost match). -/
def twitterMatch (url : String) : Option (List Char) :=
  scanMatch matchTwitterAt url.data

/- ### Data model -/

/-- `SocialMetrics` of `server/social-metrics.ts`.  The `metrics` object is a
sparse mapping from counter name to numeric value; we embed it as the ordered
key-value list of the object literal that built it. -/
structure SocialMetrics where
  platform : String
  url : String
  metrics : List (String × Int)
  timestamp : String
  success : Bool
  error : Option String
deriving DecidableEq, Repr

/-- Outcome of one outbound HTTP call, as observed by the `try` block:
`fetchError` models `fetch` rejecting (a thrown error with the given message),
`notOk` models `response.ok === false` carrying `response.statusText`,
`jsonError` models `response.json()` throwing, and `ok` a parsed 2xx body. -/
inductive HttpResult (β : Type) where
  | fetchError (msg : String)
  | notOk (statusText : String)
  | jsonError (msg : String)
  | ok (body : β)
deriving DecidableEq

/-- The Reddit post object, i.e. the fields of
`data[0]?.data?.children[0]?.data` that the fetcher reads; each may be absent. -/
structure RedditPost where
  ups : Option Int
  downs : Option Int
  num_comments : Option Int
  total_awards_received : Option Int
deriving DecidableEq

/-- `data[0]?.data?.children[0]?.data`: the whole chain may yield undefined. -/
abbrev RedditBody := Option RedditPost

/-- `data.organic?.[0]` of a Serper response; `snippet` may be absent. -/
structure SerperResult where
  snippet : Option String
deriving DecidableEq

abbrev SerperBody := Option SerperResult

/-- The ambient world of one fetch attempt: the HTTP oracles keyed by the
exact request the source sends, and the current `new Date().toISOString()`. -/
structure Env where
  redditApi : String → HttpResult RedditBody
  serperApi : String → HttpResult SerperBody
  now : String

/-- The failure record every `catch` block builds. -/
def failRecord (platform url now msg : String) : SocialMetrics :=
  { platform := platform, url := url, metrics := [], timestamp := now,
    success := false, error := some msg }

/-- The Reddit comments endpoint URL built from the extracted post id. -/
def redditApiUrl (postId : String) : String :=
  "https://www.reddit.com/comments/" ++ postId ++ ".json"

/-- `getRedditMetrics` of `server/social-metrics.ts`. -/
def getRedditMetrics (env : Env) (url : String) : SocialMetrics :=
  match redditMatch url with
  | none => failRecord "reddit" url env.now "Invalid Reddit URL format"
  | some cap =>
    match env.redditApi (redditApiUrl (String.mk cap)) with
    | .fetchError msg => failRecord "reddit" url env.now msg
    | .notOk st => failRecord "reddit" url env.now ("Reddit API error: " ++ st)
    | .jsonError msg => failRecord "reddit" url env.now msg
    | .ok none => failRecord "reddit" url env.now "Reddit post data not found"
    | .ok (some postData) =>
      { platform := "reddit", url := url,
        metrics := [("upvotes", postData.ups.getD 0),
                    ("downvotes", postData.downs.getD 0),
                    ("comments", postData.num_comments.getD 0),
                    ("awards", postData.total_awards_received.getD 0)],
        timestamp := env.now, success := true, error := none }

/-- The Serper query `getQuoraMetrics` sends. -/
def quoraQuery (url : String) : String :=
  "site:quora.com \"" ++ url ++ "\""

/-- `getQuoraMetrics` of `server/social-metrics.ts`. -/
def getQuoraMetrics (env : Env) (url : String) : SocialMetrics :=
  match env.serperApi (quoraQuery url) with
  | .fetchError msg => failRecord "quora" url env.now msg
  | .notOk st => failRecord "quora" url env.now ("Serper API error: " ++ st)
  | .jsonError msg => failRecord "quora" url env.now msg
  | .ok none => failRecord "quora" url env.now "Quora post not found in search results"
  | .ok (some result) =>
    let snippet := result.snippet.getD ""
    { platform := "quora", url := url,
      metrics := [("views", numOfMatch (matchNumWord "view".data snippet)),
                  ("upvotes_quora", numOfMatch (matchNumWord "upvote".data snippet)),
                  ("shares", 0)],
      timestamp := env.now, success := true, error := none }

/-- The Serper query `getTwitterMetrics` sends. -/
def twitterQuery (tweetId : String) : String :=
  "site:twitter.com OR site:x.com \"" ++ tweetId ++ "\" engagement metrics"

/-- `getTwitterMetrics` of `server/social-metrics.ts`.  Unlike the Quora
fetcher it does not fail when no organic result exists: `result?.snippet`
is an empty snippet and the success path proceeds. -/
def getTwitterMetrics (env : Env) (url : String) : SocialMetrics :=
  match twitterMatch url with
  | none => failRecord "twitter" url env.now "Invalid Twitter/X URL format"
  | some cap =>
    match env.serperApi (twitterQuery (String.mk cap)) with
    | .fetchError msg => failRecord "twitter" url env.now msg
    | .notOk st => failRecord "twitter" url env.now ("Serper API error: " ++ st)
    | .jsonError msg => failRecord "twitter" url env.now msg
    | .ok orgFirst =>
      let snippet := (orgFirst.bind (fun r => r.snippet)).getD ""
      { platform := "twitter", url := url,
        metrics := [("likes", numOfMatch (matchNumWord "like".data snippet)),
                    ("retweets", numOfMatch (matchNumWord "retweet".data snippet)),
                    ("replies", numOfMatch (matchNumWord "replie".data snippet)),
                    ("quotes", 0),
                    ("bookmarks", 0)],
        timestamp := env.now, success := true, error := none }

/-- JS `url.toLowerCase()`, character by character (only ASCII letters occur
in the routing needles, for which this agrees with the JS semantics). -/
def jsToLower (s : String) : String :=
  String.mk (s.data.map Char.toLower)

/-- `getSocialMetrics` of `server/social-metrics.ts`: the dispatcher. -/
def getSocialMetrics (env : Env) (url : String) : SocialMetrics :=
  let normalizedUrl := jsToLower url
  if strIncludes normalizedUrl "reddit.com" then getRedditMetrics env url
  else if strIncludes normalizedUrl "quora.com" then getQuoraMetrics env url
  else if strIncludes normalizedUrl "twitter.com" || strIncludes normalizedUrl "x.com" then
    getTwitterMetrics env url
  else
    { platform := "unknown", url := url, metrics := [], timestamp := env.now,
      success := false,
      error := some "Unsupported platform. Supported: Reddit, Quora, Twitter/X" }

/-- `getBulkSocialMetrics`: `Promise.all(urls.map(url => getSocialMetrics(url)))`.
The individual dispatch never rejects, so `Promise.all` resolves with the
result of every element in input order. -/
def getBulkSocialMetrics (env : Env) (urls : List String) : List SocialMetrics :=
  urls.map (fun url => getSocialMetrics env url)

/- ### Monitor registry (`MetricsMonitor` of `server/social-metrics.ts`) -/

/-- The `intervals: Map<string, NodeJS.Timeout>` field.  A JS `Map` holds at
most one entry per key in insertion order; we embed it as the association list
of entries, observing for each monitored URL the interval in milliseconds the
timer was registered with. -/
abbrev Registry := List (String × Nat)

/-- JS `map.get(k)`. -/
def mapGet (k : String) : Registry → Option Nat
  | [] => none
  | (k1, v) :: t => if k1 = k then some v else mapGet k t

/-- JS `map.delete(k)`: removes the (unique) entry with key `k` if present. -/
def mapDelete (k : String) : Registry → Registry
  | [] => []
  | (k1, v) :: t => if k1 = k then t else (k1, v) :: mapDelete k t

/-- JS `map.set(k, v)`: replaces the value in place when the key is present,
otherwise appends a new entry. -/
def mapSet (k : String) (v : Nat) : Registry → Registry
  | [] => [(k, v)]
  | (k1, v1) :: t => if k1 = k then (k, v) :: t else (k1, v1) :: mapSet k v t

/-- `stopMonitoring(url)`: `get`, and only when an entry exists,
`clearInterval` and `delete` (timer handles are always truthy). -/
def stopMonitoring (reg : Registry) (url : String) : Registry :=
  match mapGet url reg with
  | some _ => mapDelete url reg
  | none => reg

/-- The default of the `intervalMs: number = 300000` parameter. -/
def defaultMonitorIntervalMs : Nat := 300000

/-- `startMonitoring(url, intervalMs, callback)`: stop any existing timer for
the URL, perform one immediate fetch whose result is handed to the callback,
and register the recurring timer.  The returned pair is the new registry and
the list of records passed to the callback before any interval elapses. -/
def startMonitoring (env : Env) (reg : Registry) (url : String) (intervalMs : Nat) :
    Registry × List SocialMetrics :=
  let reg1 := stopMonitoring reg url
  let emitted := [getSocialMetrics env url]
  (mapSet url intervalMs reg1, emitted)

/-- `startMonitoring` with the `intervalMs` argument left unspecified. -/
def startMonitoringDefault (env : Env) (reg : Registry) (url : String) :
    Registry × List SocialMetrics :=
  startMonitoring env reg url defaultMonitorIntervalMs

/-- The keys of a registry. -/
def regKeys (reg : Registry) : List String := reg.map Prod.fst

/-- The `Map` representation invariant: at most one entry per key. -/
def RegWF (reg : Registry) : Prop := (regKeys reg).Nodup

/- ### Metrics store (`MemStorage` of `server/storage.ts`) -/

/-- The fields of the `@shared/schema` metric row that the store itself reads
or writes: `url` and `platform` come from the insert payload, `id` and
`createdAt` are assigned by the store.  `createdAt` is the `Date` as its
millisecond `getTime()` value, which is all the comparator consults.  The
remaining payload columns are never inspected by the store and are omitted. -/
structure SocialMetric where
  id : Nat
  url : String
  platform : String
  createdAt : Int
deriving DecidableEq, Repr

/-- The insert payload fields the store copies. -/
structure InsertSocialMetric where
  url : String
  platform : String
deriving DecidableEq

/-- The social-metrics slice of `MemStorage`: the `Map<number, SocialMetric>`
as its values in insertion order, plus the id counter. -/
structure MemStorage where
  socialMetrics : List SocialMetric
  currentMetricId : Nat
deriving DecidableEq

/-- Insert one record (`m`) into a list sorted descending by `createdAt`,
after every earlier entry with an equal or larger timestamp.  Folding this
over the input implements the stable descending sort that
`Array.prototype.sort` with comparator `(a, b) => b.createdAt - a.createdAt`
performs. -/
def insertByDesc (m : SocialMetric) : List SocialMetric → List SocialMetric
  | [] => [m]
  | h :: t => if h.createdAt < m.createdAt then m :: h :: t else h :: insertByDesc m t

/-- Stable sort descending by `createdAt`. -/
def sortByCreatedDesc (l : List SocialMetric) : List SocialMetric :=
  l.foldl (fun acc m => insertByDesc m acc) []

/-- Newest-first order: the left record was created no earlier than the right
one (the order the comparator `b.createdAt - a.createdAt` sorts into). -/
def DescBy (a b : SocialMetric) : Prop := b.createdAt ≤ a.createdAt

/-- Spec-side filter, following the spec words for the store query: records
are "optionally filtered by exact URL and/or exact platform match".  It is
compared against the source-side `MemStorage.getSocialMetricsQ` below. -/
def specExactMatch (url? platform? : Option String) (m : SocialMetric) : Bool :=
  (match url? with
   | some u => m.url = u
   | none => true) &&
  (match platform? with
   | some p => m.platform = p
   | none => true)

/-- `MemStorage.getSocialMetrics(url?, platform?)`: filter by exact URL when a
truthy url is given, then by exact platform when a truthy platform is given,
then sort descending by creation time. -/
def MemStorage.getSocialMetricsQ (st : MemStorage) (url? platform? : Option String) :
    List SocialMetric :=
  let metrics := st.socialMetrics
  let metrics :=
    match url? with
    | some u => if u = "" then metrics else metrics.filter (fun m => m.url = u)
    | none => metrics
  let metrics :=
    match platform? with
    | some p => if p = "" then metrics else metrics.filter (fun m => m.platform = p)
    | none => metrics
  sortByCreatedDesc metrics

/-- `MemStorage.createSocialMetric`: assign the next id and the server-side
creation instant, append to the map, return the record and the new store. -/
def MemStorage.createSocialMetric (st : MemStorage) (ins : InsertSocialMetric)
    (now : Int) : SocialMetric × MemStorage :=
  let id := st.currentMetricId
  let metric : SocialMetric :=
    { id := id, url := ins.url, platform := ins.platform, createdAt := now }
  (metric, { socialMetrics := st.socialMetrics ++ [metric], currentMetricId := id + 1 })

/-- `MemStorage.getLatestMetrics(url)`: head of the url-filtered,
newest-first-sorted list. -/
def MemStorage.getLatestMetrics (st : MemStorage) (url : String) : Option SocialMetric :=
  (st.getSocialMetricsQ (some url) none).head?

/- ### Concrete worlds for witnesses -/

/-- A world whose search proxy has no organic result and whose Reddit API is
unreachable. -/
def envNone : Env :=
  { redditApi := fun _ => .fetchError "network down",
    serperApi := fun _ => .ok none,
    now := "2026-01-01T00:00:00.000Z" }

/-- A world whose Reddit API returns the spec example payload
`{ups: 42, downs: 3, num_comments: 7, total_awards_received: 1}`. -/
def envReddit : Env :=
  { redditApi := fun _ =>
      .ok (some { ups := some 42, downs := some 3,
                  num_comments := some 7, total_awards_received := some 1 }),
    serperApi := fun _ => .ok none,
    now := "2026-01-01T00:00:00.000Z" }

/-- An empty metrics store. -/
def stEmpty : MemStorage := { socialMetrics := [], currentMetricId := 1 }

/-- A concrete insert payload. -/
def insA : InsertSocialMetric := { url := "a", platform := "reddit" }

/-- A world whose search proxy returns one organic result with the snippet
`12,345 views 678 upvotes`. -/
def envSnippet : Env :=
  { redditApi := fun _ => .fetchError "network down",
    serperApi := fun _ => .ok (some { snippet := some "12,345 views 678 upvotes" }),
    now := "2026-01-01T00:00:00.000Z" }

/- ### Helper lemmas -/

theorem getRedditMetrics_url (env : Env) (url : String) :
    (getRedditMetrics env url).url = url := by
  unfold getRedditMetrics
  split
  · rfl
  · split <;> rfl

theorem getQuoraMetrics_url (env : Env) (url : String) :
    (getQuoraMetrics env url).url = url := by
  unfold getQuoraMetrics
  split <;> rfl

theorem getTwitterMetrics_url (env : Env) (url : String) :
    (getTwitterMetrics env url).url = url := by
  unfold getTwitterMetrics
  split
  · rfl
  · split <;> rfl

/-- C1: the dispatcher lower-cases the URL for matching only and routes
first-match-wins (reddit.com, then quora.com, then twitter.com or x.com);
any other URL yields, independently of the HTTP oracles (hence with no
network call), the fixed unsupported-platform failure record; and in every
case the returned record keeps the original URL with its casing. -/
theorem dispatcher_first_match_routing (env : Env) (url : String) :
    (strIncludes (jsToLower url) "reddit.com" = true →
      getSocialMetrics env url = getRedditMetrics env url) ∧
    (strIncludes (jsToLower url) "reddit.com" = false →
     strIncludes (jsToLower url) "quora.com" = true →
      getSocialMetrics env url = getQuoraMetrics env url) ∧
    (strIncludes (jsToLower url) "reddit.com" = false →
     strIncludes (jsToLower url) "quora.com" = false →
     (strIncludes (jsToLower url) "twitter.com" = true ∨ strIncludes (jsToLower url) "x.com" = true) →
      getSocialMetrics env url = getTwitterMetrics env url) ∧
    (strIncludes (jsToLower url) "reddit.com" = false →
     strIncludes (jsToLower url) "quora.com" = false →
     strIncludes (jsToLower url) "twitter.com" = false →
     strIncludes (jsToLower url) "x.com" = false →
      getSocialMetrics env url =
        { platform := "unknown", url := url, metrics := [], timestamp := env.now,
          success := false,
          error := some "Unsupported platform. Supported: Reddit, Quora, Twitter/X" } ∧
      ∀ env2 : Env, env2.now = env.now → getSocialMetrics env2 url = getSocialMetrics env url) ∧
    (getSocialMetrics env url).url = url := by
  refine ⟨?_, ?_, ?_, ?_, ?_⟩
  · intro h1
    simp [getSocialMetrics, h1]
  · intro h1 h2
    simp [getSocialMetrics, h1, h2]
  · intro h1 h2 h3
    rcases h3 with h3 | h3 <;> simp [getSocialMetrics, h1, h2, h3]
  · intro h1 h2 h3 h4
    constructor
    · simp [getSocialMetrics, h1, h2, h3, h4]
    · intro env2 hnow
      simp [getSocialMetrics, h1, h2, h3, h4, hnow]
  · by_cases h1 : strIncludes (jsToLower url) "reddit.com" = true
    · simp [getSocialMetrics, h1, getRedditMetrics_url]
    · by_cases h2 : strIncludes (jsToLower url) "quora.com" = true
      · simp [getSocialMetrics, h1, h2, getQuoraMetrics_url]
      · by_cases h3 : (strIncludes (jsToLower url) "twitter.com" || strIncludes (jsToLower url) "x.com") = true
        · simp [getSocialMetrics, h1, h2, h3, getTwitterMetrics_url]
        · simp [getSocialMetrics, h1, h2, h3]

/-- C1 witness: the unsupported-platform example of the spec, and a routed
Reddit URL whose original casing survives. -/
theorem dispatcher_first_match_routing_witness :
    getSocialMetrics envNone "https://example.com/not-social" =
      { platform := "unknown", url := "https://example.com/not-social", metrics := [],
        timestamp := "2026-01-01T00:00:00.000Z", success := false,
        error := some "Unsupported platform. Supported: Reddit, Quora, Twitter/X" } ∧
    getSocialMetrics envNone "https://Reddit.com/r/p/comments/x1" =
      getRedditMetrics envNone "https://Reddit.com/r/p/comments/x1" := by
  constructor
  · exact ((dispatcher_first_match_routing envNone "https://example.com/not-social").2.2.2.1
      (by decide) (by decide) (by decide) (by decide)).1
  · exact (dispatcher_first_match_routing envNone "https://Reddit.com/r/p/comments/x1").1
      (by decide)

/-- C2: each platform fetcher is a total function into the record shape:
the routed platform, the original URL and the capture instant are always
present; a failed attempt has empty metrics and an error message, a
successful one has no error. -/
theorem fetchers_error_shape_contract (env : Env) (url : String) :
    ((getRedditMetrics env url).platform = "reddit" ∧
     (getRedditMetrics env url).url = url ∧
     (getRedditMetrics env url).timestamp = env.now ∧
     (((getRedditMetrics env url).success = false ∧
       (getRedditMetrics env url).metrics = [] ∧
       (getRedditMetrics env url).error.isSome = true) ∨
      ((getRedditMetrics env url).success = true ∧
       (getRedditMetrics env url).error = none))) ∧
    ((getQuoraMetrics env url).platform = "quora" ∧
     (getQuoraMetrics env url).url = url ∧
     (getQuoraMetrics env url).timestamp = env.now ∧
     (((getQuoraMetrics env url).success = false ∧
       (getQuoraMetrics env url).metrics = [] ∧
       (getQuoraMetrics env url).error.isSome = true) ∨
      ((getQuoraMetrics env url).success = true ∧
       (getQuoraMetrics env url).error = none))) ∧
    ((getTwitterMetrics env url).platform = "twitter" ∧
     (getTwitterMetrics env url).url = url ∧
     (getTwitterMetrics env url).timestamp = env.now ∧
     (((getTwitterMetrics env url).success = false ∧
       (getTwitterMetrics env url).metrics = [] ∧
       (getTwitterMetrics env url).error.isSome = true) ∨
      ((getTwitterMetrics env url).success = true ∧
       (getTwitterMetrics env url).error = none))) := by
  refine ⟨?_, ?_, ?_⟩
  · unfold getRedditMetrics
    split
    · exact ⟨rfl, rfl, rfl, Or.inl ⟨rfl, rfl, rfl⟩⟩
    · split
      · exact ⟨rfl, rfl, rfl, Or.inl ⟨rfl, rfl, rfl⟩⟩
      · exact ⟨rfl, rfl, rfl, Or.inl ⟨rfl, rfl, rfl⟩⟩
      · exact ⟨rfl, rfl, rfl, Or.inl ⟨rfl, rfl, rfl⟩⟩
      · exact ⟨rfl, rfl, rfl, Or.inl ⟨rfl, rfl, rfl⟩⟩
      · exact ⟨rfl, rfl, rfl, Or.inr ⟨rfl, rfl⟩⟩
  · unfold getQuoraMetrics
    split
    · exact ⟨rfl, rfl, rfl, Or.inl ⟨rfl, rfl, rfl⟩⟩
    · exact ⟨rfl, rfl, rfl, Or.inl ⟨rfl, rfl, rfl⟩⟩
    · exact ⟨rfl, rfl, rfl, Or.inl ⟨rfl, rfl, rfl⟩⟩
    · exact ⟨rfl, rfl, rfl, Or.inl ⟨rfl, rfl, rfl⟩⟩
    · exact ⟨rfl, rfl, rfl, Or.inr ⟨rfl, rfl⟩⟩
  · unfold getTwitterMetrics
    split
    · exact ⟨rfl, rfl, rfl, Or.inl ⟨rfl, rfl, rfl⟩⟩
    · split
      · exact ⟨rfl, rfl, rfl, Or.inl ⟨rfl, rfl, rfl⟩⟩
      · exact ⟨rfl, rfl, rfl, Or.inl ⟨rfl, rfl, rfl⟩⟩
      · exact ⟨rfl, rfl, rfl, Or.inl ⟨rfl, rfl, rfl⟩⟩
      · exact ⟨rfl, rfl, rfl, Or.inr ⟨rfl, rfl⟩⟩

/-- C3: the bulk fetch returns one record per input URL, in input order, the
i-th being exactly the dispatcher result of the i-th URL; every element is
present whatever its siblings produced. -/
theorem bulk_fetch_preserves_order (env : Env) (urls : List String) :
    (getBulkSocialMetrics env urls).length = urls.length ∧
    ∀ i : Nat, (getBulkSocialMetrics env urls)[i]? =
      (urls[i]?).map (fun url => getSocialMetrics env url) := by
  constructor
  · simp [getBulkSocialMetrics]
  · intro i
    simp [getBulkSocialMetrics, List.getElem?_map]

/-- C4: with a 2xx search-proxy response whose payload has no organic result,
the Quora fetcher fails with "Quora post not found in search results", while
the Twitter fetcher proceeds on an empty snippet and succeeds with likes,
retweets, replies, quotes and bookmarks all 0. -/
theorem no_result_quora_fails_twitter_zeroes (env : Env) (urlQ urlT : String)
    (tid : List Char)
    (hq : env.serperApi (quoraQuery urlQ) = .ok none)
    (hmt : twitterMatch urlT = some tid)
    (ht : env.serperApi (twitterQuery (String.mk tid)) = .ok none) :
    getQuoraMetrics env urlQ =
      failRecord "quora" urlQ env.now "Quora post not found in search results" ∧
    getTwitterMetrics env urlT =
      { platform := "twitter", url := urlT,
        metrics := [("likes", 0), ("retweets", 0), ("replies", 0),
                    ("quotes", 0), ("bookmarks", 0)],
        timestamp := env.now, success := true, error := none } := by
  constructor
  · simp only [getQuoraMetrics, hq]
  · simp only [getTwitterMetrics, hmt, ht]
    rfl

/-- C4 witness: a world whose search proxy has no organic result. -/
theorem no_result_quora_fails_twitter_zeroes_witness :
    getQuoraMetrics envNone "https://quora.com/q" =
      failRecord "quora" "https://quora.com/q" "2026-01-01T00:00:00.000Z"
        "Quora post not found in search results" ∧
    getTwitterMetrics envNone "https://twitter.com/user/status/123" =
      { platform := "twitter", url := "https://twitter.com/user/status/123",
        metrics := [("likes", 0), ("retweets", 0), ("replies", 0),
                    ("quotes", 0), ("bookmarks", 0)],
        timestamp := "2026-01-01T00:00:00.000Z", success := true, error := none } :=
  no_result_quora_fails_twitter_zeroes envNone "https://quora.com/q"
    "https://twitter.com/user/status/123" "123".data rfl (by decide) rfl

/-- C5: the Reddit fetcher fails with "Invalid Reddit URL format" when the
URL does not match `reddit.com/r/<sub>/comments/<id>`; fails carrying the
upstream status text on a non-2xx response; fails with "Reddit post data not
found" when the payload misses the post-data shape; and on a well-shaped
payload succeeds with `ups`, `downs`, `num_comments`,
`total_awards_received` mapped to upvotes, downvotes, comments, awards,
each defaulting to 0 when absent. -/
theorem reddit_fetcher_case_analysis (env : Env) (url : String) :
    (redditMatch url = none →
      getRedditMetrics env url =
        failRecord "reddit" url env.now "Invalid Reddit URL format") ∧
    (∀ cap st, redditMatch url = some cap →
      env.redditApi (redditApiUrl (String.mk cap)) = .notOk st →
      getRedditMetrics env url =
        failRecord "reddit" url env.now ("Reddit API error: " ++ st)) ∧
    (∀ cap, redditMatch url = some cap →
      env.redditApi (redditApiUrl (String.mk cap)) = .ok none →
      getRedditMetrics env url =
        failRecord "reddit" url env.now "Reddit post data not found") ∧
    (∀ cap postData, redditMatch url = some cap →
      env.redditApi (redditApiUrl (String.mk cap)) = .ok (some postData) →
      getRedditMetrics env url =
        { platform := "reddit", url := url,
          metrics := [("upvotes", postData.ups.getD 0),
                      ("downvotes", postData.downs.getD 0),
                      ("comments", postData.num_comments.getD 0),
                      ("awards", postData.total_awards_received.getD 0)],
          timestamp := env.now, success := true, error := none }) := by
  refine ⟨?_, ?_, ?_, ?_⟩
  · intro h
    simp only [getRedditMetrics, h]
  · intro cap st h1 h2
    simp only [getRedditMetrics, h1, h2]
  · intro cap h1 h2
    simp only [getRedditMetrics, h1, h2]
  · intro cap postData h1 h2
    simp only [getRedditMetrics, h1, h2]

/-- C5 witness: the spec example payload on the spec example URL, plus an
invalid-format URL. -/
theorem reddit_fetcher_case_analysis_witness :
    getRedditMetrics envReddit "https://reddit.com/r/programming/comments/abc123/title" =
      { platform := "reddit",
        url := "https://reddit.com/r/programming/comments/abc123/title",
        metrics := [("upvotes", 42), ("downvotes", 3), ("comments", 7), ("awards", 1)],
        timestamp := "2026-01-01T00:00:00.000Z", success := true, error := none } ∧
    getRedditMetrics envReddit "https://reddit.com/rx/abc" =
      failRecord "reddit" "https://reddit.com/rx/abc" "2026-01-01T00:00:00.000Z"
        "Invalid Reddit URL format" := by
  constructor
  · rw [(reddit_fetcher_case_analysis envReddit
        "https://reddit.com/r/programming/comments/abc123/title").2.2.2
      "abc123".data
      { ups := some 42, downs := some 3, num_comments := some 7,
        total_awards_received := some 1 }
      (by decide) rfl]
    rfl
  · exact (reddit_fetcher_case_analysis envReddit "https://reddit.com/rx/abc").1 (by decide)

/-- C8 counterexample: with an organic result whose snippet is
`12,345 views 678 upvotes`, the Quora fetcher succeeds and extracts 678, but
stores it under the key `upvotes_quora`; the mapping has no key `upvotes`,
refuting the claimed key set views/upvotes/shares. -/
theorem quora_metrics_key_counterexample :
    (getQuoraMetrics envSnippet "https://quora.com/q").success = true ∧
    matchNumWord "upvote".data "12,345 views 678 upvotes" = some "678".data ∧
    List.lookup "upvotes" (getQuoraMetrics envSnippet "https://quora.com/q").metrics = none ∧
    List.lookup "upvotes_quora" (getQuoraMetrics envSnippet "https://quora.com/q").metrics =
      some 678 := by
  refine ⟨by decide, by decide, by decide, by decide⟩

/-- C8 (amended): on a 2xx search-proxy response with an organic result, the
Quora fetcher succeeds with the metrics keys views, upvotes_quora and shares;
views and upvotes_quora are the numbers the regexes extract from the snippet
(commas stripped, 0 when unmatched) and shares is always 0. -/
theorem quora_success_metrics_shape (env : Env) (url : String) (result : SerperResult)
    (h : env.serperApi (quoraQuery url) = .ok (some result)) :
    getQuoraMetrics env url =
      { platform := "quora", url := url,
        metrics := [("views", numOfMatch (matchNumWord "view".data (result.snippet.getD ""))),
                    ("upvotes_quora",
                      numOfMatch (matchNumWord "upvote".data (result.snippet.getD ""))),
                    ("shares", 0)],
        timestamp := env.now, success := true, error := none } := by
  simp only [getQuoraMetrics, h]

/-- C8 witness: the snippet `12,345 views 678 upvotes` yields views 12345 and
upvotes_quora 678. -/
theorem quora_success_metrics_shape_witness :
    getQuoraMetrics envSnippet "https://quora.com/q" =
      { platform := "quora", url := "https://quora.com/q",
        metrics := [("views", 12345), ("upvotes_quora", 678), ("shares", 0)],
        timestamp := "2026-01-01T00:00:00.000Z", success := true, error := none } := by
  rw [quora_success_metrics_shape envSnippet "https://quora.com/q"
    { snippet := some "12,345 views 678 upvotes" } rfl]
  decide

theorem mapGet_mapSet_self (k : String) (v : Nat) (reg : Registry) :
    mapGet k (mapSet k v reg) = some v := by
  induction reg with
  | nil => simp [mapSet, mapGet]
  | cons e t ih =>
    obtain ⟨k1, v1⟩ := e
    by_cases h : k1 = k
    · simp [mapSet, mapGet, h]
    · simp [mapSet, mapGet, h, ih]

theorem mapGet_eq_none_iff (k : String) (reg : Registry) :
    mapGet k reg = none ↔ k ∉ regKeys reg := by
  induction reg with
  | nil => simp [mapGet, regKeys]
  | cons e t ih =>
    obtain ⟨k1, v1⟩ := e
    by_cases h : k1 = k
    · subst h
      simp [mapGet, regKeys]
    · have h1 : mapGet k ((k1, v1) :: t) = mapGet k t := by simp [mapGet, h]
      rw [h1, ih]
      simp only [regKeys, List.map_cons, List.mem_cons, not_or]
      exact ⟨fun hnot => ⟨fun he => h he.symm, hnot⟩, fun hp => hp.2⟩

theorem regKeys_mapDelete_sublist (k : String) (reg : Registry) :
    List.Sublist (regKeys (mapDelete k reg)) (regKeys reg) := by
  induction reg with
  | nil => simp [mapDelete, regKeys]
  | cons e t ih =>
    obtain ⟨k1, v1⟩ := e
    by_cases h : k1 = k
    · simp only [mapDelete, h, if_pos]
      exact List.sublist_cons_self _ _
    · simp only [mapDelete, h, if_neg, not_false_eq_true, regKeys, List.map_cons]
      exact List.Sublist.cons₂ _ ih

theorem regWF_mapDelete (k : String) (reg : Registry) (h : RegWF reg) :
    RegWF (mapDelete k reg) :=
  (regKeys_mapDelete_sublist k reg).nodup h

theorem mapDelete_keys_not_mem (k : String) (reg : Registry) (h : RegWF reg) :
    k ∉ regKeys (mapDelete k reg) := by
  induction reg with
  | nil => simp [mapDelete, regKeys]
  | cons e t ih =>
    obtain ⟨k1, v1⟩ := e
    rw [RegWF, regKeys, List.map_cons, List.nodup_cons] at h
    by_cases hk : k1 = k
    · simp only [mapDelete, hk, if_pos]
      rw [← hk]
      exact h.1
    · simp only [mapDelete, hk, if_neg, not_false_eq_true, regKeys, List.map_cons,
        List.mem_cons, not_or]
      exact ⟨fun he => hk he.symm, ih h.2⟩

theorem regWF_stopMonitoring (reg : Registry) (url : String) (h : RegWF reg) :
    RegWF (stopMonitoring reg url) := by
  unfold stopMonitoring
  split
  · exact regWF_mapDelete url reg h
  · exact h

theorem stopMonitoring_keys_not_mem (reg : Registry) (url : String) (h : RegWF reg) :
    url ∉ regKeys (stopMonitoring reg url) := by
  unfold stopMonitoring
  split
  · exact mapDelete_keys_not_mem url reg h
  · rename_i hg
    exact (mapGet_eq_none_iff url reg).mp hg

theorem mapSet_not_mem (k : String) (v : Nat) (reg : Registry)
    (h : k ∉ regKeys reg) : mapSet k v reg = reg ++ [(k, v)] := by
  induction reg with
  | nil => simp [mapSet]
  | cons e t ih =>
    obtain ⟨k1, v1⟩ := e
    rw [regKeys, List.map_cons, List.mem_cons, not_or] at h
    have hk : k1 ≠ k := fun he => h.1 he.symm
    simp [mapSet, hk, ih h.2]

theorem mapGet_mapDelete_ne (u v : String) (reg : Registry) (h : v ≠ u) :
    mapGet v (mapDelete u reg) = mapGet v reg := by
  induction reg with
  | nil => rfl
  | cons e t ih =>
    obtain ⟨k1, v1⟩ := e
    by_cases hk : k1 = u
    · subst hk
      have hne : k1 ≠ v := fun he => h he.symm
      simp [mapDelete, mapGet, hne]
    · by_cases hv : k1 = v
      · subst hv
        simp [mapDelete, mapGet, hk, h]
      · simp [mapDelete, mapGet, hk, hv, ih]

/-- C7: starting a monitor stops any existing timer for the URL first and
registers exactly one entry for it, carrying the newly supplied interval; the
registry stays well-formed; one dispatcher fetch is emitted to the callback
immediately; and an unspecified interval defaults to 300000 ms. -/
theorem start_monitoring_single_timer (env : Env) (reg : Registry) (url : String)
    (intervalMs : Nat) (hwf : RegWF reg) :
    List.count url (regKeys (startMonitoring env reg url intervalMs).1) = 1 ∧
    mapGet url (startMonitoring env reg url intervalMs).1 = some intervalMs ∧
    (startMonitoring env reg url intervalMs).2 = [getSocialMetrics env url] ∧
    RegWF (startMonitoring env reg url intervalMs).1 ∧
    startMonitoringDefault env reg url = startMonitoring env reg url 300000 := by
  have hnm : url ∉ regKeys (stopMonitoring reg url) :=
    stopMonitoring_keys_not_mem reg url hwf
  have hwf1 : RegWF (stopMonitoring reg url) := regWF_stopMonitoring reg url hwf
  have hset : mapSet url intervalMs (stopMonitoring reg url) =
      stopMonitoring reg url ++ [(url, intervalMs)] := mapSet_not_mem _ _ _ hnm
  refine ⟨?_, ?_, rfl, ?_, rfl⟩
  · show List.count url (regKeys (mapSet url intervalMs (stopMonitoring reg url))) = 1
    rw [hset]
    simp only [regKeys] at hnm ⊢
    rw [List.map_append, List.count_append]
    simp [List.count_eq_zero.mpr hnm]
  · exact mapGet_mapSet_self url intervalMs (stopMonitoring reg url)
  · show RegWF (mapSet url intervalMs (stopMonitoring reg url))
    rw [hset]
    unfold RegWF at hwf1 ⊢
    simp only [regKeys] at hnm hwf1 ⊢
    rw [List.map_append, List.nodup_append]
    refine ⟨hwf1, by simp, ?_⟩
    intro a ha hb
    have hau : a = url := by simpa using hb
    exact hnm (hau ▸ ha)

/-- C7 witness: restarting an existing monitor with a new interval leaves one
entry with the new interval. -/
theorem start_monitoring_single_timer_witness :
    List.count "u" (regKeys (startMonitoring envNone [("u", 5000), ("v", 7000)] "u" 1000).1) = 1 ∧
    mapGet "u" (startMonitoring envNone [("u", 5000), ("v", 7000)] "u" 1000).1 = some 1000 := by
  have h := start_monitoring_single_timer envNone [("u", 5000), ("v", 7000)] "u" 1000
    (by unfold RegWF regKeys; decide)
  exact ⟨h.1, h.2.1⟩

/-- C9: stopping a URL with no registry entry is a no-op on the registry;
stopping one with an entry removes that entry (and only resolves to a deleted
registry), leaving no entry for the URL in a well-formed registry. -/
theorem stop_monitoring_absent_noop (reg : Registry) (url : String) :
    (mapGet url reg = none → stopMonitoring reg url = reg) ∧
    (∀ v, mapGet url reg = some v →
      stopMonitoring reg url = mapDelete url reg ∧
      (RegWF reg → mapGet url (stopMonitoring reg url) = none)) := by
  constructor
  · intro h
    unfold stopMonitoring
    rw [h]
  · intro v h
    constructor
    · unfold stopMonitoring
      rw [h]
    · intro hwf
      exact (mapGet_eq_none_iff url _).mpr (stopMonitoring_keys_not_mem reg url hwf)

/-- C9 witness: both the absent (no-op) and the present (removal) case. -/
theorem stop_monitoring_absent_noop_witness :
    stopMonitoring [("u", 5000)] "w" = [("u", 5000)] ∧
    stopMonitoring [("u", 5000), ("v", 7000)] "u" = [("v", 7000)] := by
  constructor
  · exact (stop_monitoring_absent_noop [("u", 5000)] "w").1 (by decide)
  · have h := ((stop_monitoring_absent_noop [("u", 5000), ("v", 7000)] "u").2 5000 (by decide)).1
    rw [h]
    decide

/-- C10: stopping one URL never touches the entry of any other URL. -/
theorem stop_monitoring_frame (reg : Registry) (u v : String) (h : v ≠ u) :
    mapGet v (stopMonitoring reg u) = mapGet v reg := by
  unfold stopMonitoring
  split
  · exact mapGet_mapDelete_ne u v reg h
  · rfl

/-- C10 witness: stopping `u` leaves the entry of `v` unchanged. -/
theorem stop_monitoring_frame_witness :
    mapGet "v" (stopMonitoring [("u", 5000), ("v", 7000)] "u") = some 7000 ∧
    mapGet "v" [("u", 5000), ("v", 7000)] = some 7000 := by
  constructor
  · rw [stop_monitoring_frame [("u", 5000), ("v", 7000)] "u" "v" (by decide)]
    decide
  · decide

theorem insertByDesc_perm (m : SocialMetric) (l : List SocialMetric) :
    List.Perm (insertByDesc m l) (m :: l) := by
  induction l with
  | nil => exact List.Perm.refl _
  | cons a t ih =>
    by_cases hc : a.createdAt < m.createdAt
    · simp [insertByDesc, hc]
    · simp only [insertByDesc, hc, if_neg, not_false_eq_true, if_false]
      exact (ih.cons a).trans (List.Perm.swap m a t)

theorem mem_insertByDesc {x m : SocialMetric} {l : List SocialMetric} :
    x ∈ insertByDesc m l ↔ x = m ∨ x ∈ l := by
  rw [(insertByDesc_perm m l).mem_iff]
  simp

theorem sorted_insertByDesc (m : SocialMetric) (l : List SocialMetric)
    (h : List.Sorted DescBy l) : List.Sorted DescBy (insertByDesc m l) := by
  induction l with
  | nil => simp [insertByDesc, List.sorted_singleton]
  | cons a t ih =>
    rw [List.sorted_cons] at h
    obtain ⟨ha, ht⟩ := h
    by_cases hc : a.createdAt < m.createdAt
    · simp only [insertByDesc, hc, if_pos]
      rw [List.sorted_cons]
      refine ⟨?_, List.sorted_cons.mpr ⟨ha, ht⟩⟩
      intro b hb
      rcases List.mem_cons.mp hb with rfl | hb
      · exact le_of_lt hc
      · exact le_trans (ha b hb) (le_of_lt hc)
    · simp only [insertByDesc, hc, if_neg, not_false_eq_true, if_false]
      rw [List.sorted_cons]
      refine ⟨?_, ih ht⟩
      intro b hb
      rcases mem_insertByDesc.mp hb with rfl | hb
      · exact not_lt.mp hc
      · exact ha b hb

theorem foldl_insertByDesc_perm (l acc : List SocialMetric) :
    List.Perm (l.foldl (fun acc2 m => insertByDesc m acc2) acc) (acc ++ l) := by
  induction l generalizing acc with
  | nil => simp
  | cons a t ih =>
    simp only [List.foldl_cons]
    refine (ih (insertByDesc a acc)).trans ?_
    refine (List.Perm.append_right t (insertByDesc_perm a acc)).trans ?_
    exact List.perm_middle.symm

theorem sortByCreatedDesc_perm (l : List SocialMetric) :
    List.Perm (sortByCreatedDesc l) l := by
  have h := foldl_insertByDesc_perm l []
  simpa [sortByCreatedDesc] using h

theorem foldl_insertByDesc_sorted (l acc : List SocialMetric)
    (h : List.Sorted DescBy acc) :
    List.Sorted DescBy (l.foldl (fun acc2 m => insertByDesc m acc2) acc) := by
  induction l generalizing acc with
  | nil => simpa using h
  | cons a t ih =>
    simp only [List.foldl_cons]
    exact ih _ (sorted_insertByDesc a acc h)

theorem sortByCreatedDesc_sorted (l : List SocialMetric) :
    List.Sorted DescBy (sortByCreatedDesc l) :=
  foldl_insertByDesc_sorted l [] List.sorted_nil

theorem specExactMatch_none_some (p : String) (m : SocialMetric) :
    specExactMatch none (some p) m = decide (m.platform = p) := by
  simp [specExactMatch]

theorem specExactMatch_some_none (u : String) (m : SocialMetric) :
    specExactMatch (some u) none m = decide (m.url = u) := by
  simp [specExactMatch]

theorem getSocialMetricsQ_eq_sort_filter (st : MemStorage) (url? platform? : Option String)
    (hup : ∀ x, url? = some x → x ≠ "") (hpp : ∀ x, platform? = some x → x ≠ "") :
    st.getSocialMetricsQ url? platform? =
      sortByCreatedDesc (st.socialMetrics.filter (specExactMatch url? platform?)) := by
  unfold MemStorage.getSocialMetricsQ
  cases url? with
  | none =>
    cases platform? with
    | none =>
      have h1 : List.filter (specExactMatch none none) st.socialMetrics
          = List.filter (fun _ => true) st.socialMetrics :=
        List.filter_congr (fun m _ => rfl)
      rw [h1, List.filter_true]
    | some p =>
      have hp := hpp p rfl
      dsimp only
      rw [if_neg hp]
      congr 1
  | some u2 =>
    have hu2 := hup u2 rfl
    cases platform? with
    | none =>
      dsimp only
      rw [if_neg hu2]
      congr 1
      exact List.filter_congr (fun m _ => (specExactMatch_some_none u2 m).symm)
    | some p =>
      have hp := hpp p rfl
      dsimp only
      rw [if_neg hu2, if_neg hp, List.filter_filter]
      congr 1
      exact List.filter_congr (fun m _ => by simp [specExactMatch, Bool.and_comm])

/-- C6: the store query returns the stored records filtered by the provided
exact URL and/or platform value and sorted descending by creation time;
`getLatestMetrics` is the head of the url-filtered sorted list, none exactly
when no stored record has the URL, and otherwise a stored record for the URL
of maximal creation time; in particular after inserting three records for a
URL at times T1 < T2 < T3 into an empty store it returns the third record. -/
theorem store_query_and_latest (st : MemStorage) (url? platform? : Option String)
    (u : String) (hu : u ≠ "")
    (hup : ∀ x, url? = some x → x ≠ "") (hpp : ∀ x, platform? = some x → x ≠ "") :
    List.Sorted DescBy (st.getSocialMetricsQ url? platform?) ∧
    List.Perm (st.getSocialMetricsQ url? platform?)
      (st.socialMetrics.filter (specExactMatch url? platform?)) ∧
    st.getLatestMetrics u = (st.getSocialMetricsQ (some u) none).head? ∧
    (st.getLatestMetrics u = none ↔ ∀ m ∈ st.socialMetrics, ¬(m.url = u)) ∧
    (∀ r, st.getLatestMetrics u = some r →
      r ∈ st.socialMetrics ∧ r.url = u ∧
      ∀ m ∈ st.socialMetrics, m.url = u → m.createdAt ≤ r.createdAt) ∧
    (∀ (st0 : MemStorage) (i1 i2 i3 : InsertSocialMetric) (t1 t2 t3 : Int),
      st0.socialMetrics = [] → i1.url = u → i2.url = u → i3.url = u →
      t1 < t2 → t2 < t3 →
      (((st0.createSocialMetric i1 t1).2.createSocialMetric
          i2 t2).2.createSocialMetric i3 t3).2.getLatestMetrics u =
        some ((((st0.createSocialMetric i1 t1).2.createSocialMetric
          i2 t2).2.createSocialMetric i3 t3).1)) := by
  have hlatq : st.getLatestMetrics u =
      (sortByCreatedDesc (st.socialMetrics.filter (specExactMatch (some u) none))).head? := by
    rw [MemStorage.getLatestMetrics, getSocialMetricsQ_eq_sort_filter st (some u) none
      (fun x hx => by cases hx; exact hu) (fun x hx => Option.noConfusion hx)]
  refine ⟨?_, ?_, rfl, ?_, ?_, ?_⟩
  · rw [getSocialMetricsQ_eq_sort_filter st url? platform? hup hpp]
    exact sortByCreatedDesc_sorted _
  · rw [getSocialMetricsQ_eq_sort_filter st url? platform? hup hpp]
    exact sortByCreatedDesc_perm _
  · rw [hlatq, List.head?_eq_none_iff]
    constructor
    · intro h0 m hm hmu
      have hnil : st.socialMetrics.filter (specExactMatch (some u) none) = [] := by
        have hp := sortByCreatedDesc_perm (st.socialMetrics.filter (specExactMatch (some u) none))
        rw [h0] at hp
        exact (List.Perm.symm hp).eq_nil
      have := List.filter_eq_nil_iff.mp hnil m hm
      apply this
      simp [specExactMatch, hmu]
    · intro hall
      have hnil : st.socialMetrics.filter (specExactMatch (some u) none) = [] := by
        rw [List.filter_eq_nil_iff]
        intro m hm
        simp only [specExactMatch, Bool.and_true, decide_eq_true_eq]
        exact hall m hm
      rw [hnil]
      rfl
  · intro r hr
    rw [hlatq] at hr
    rcases hL : sortByCreatedDesc (st.socialMetrics.filter (specExactMatch (some u) none)) with
      _ | ⟨a, rest⟩
    · rw [hL] at hr
      exact absurd hr (by simp)
    · rw [hL] at hr
      have hra : a = r := by simpa using hr
      subst hra
      have hperm := sortByCreatedDesc_perm (st.socialMetrics.filter (specExactMatch (some u) none))
      rw [hL] at hperm
      have haF : a ∈ st.socialMetrics.filter (specExactMatch (some u) none) :=
        hperm.mem_iff.mp (List.mem_cons_self a rest)
      have haB := List.mem_filter.mp haF
      have hau : a.url = u := by
        simpa [specExactMatch] using haB.2
      refine ⟨haB.1, hau, ?_⟩
      intro m hm hmu
      have hmF : m ∈ st.socialMetrics.filter (specExactMatch (some u) none) :=
        List.mem_filter.mpr ⟨hm, by simp [specExactMatch, hmu]⟩
      have hmL : m ∈ a :: rest := hperm.symm.mem_iff.mp hmF
      have hs := sortByCreatedDesc_sorted (st.socialMetrics.filter (specExactMatch (some u) none))
      rw [hL, List.sorted_cons] at hs
      rcases List.mem_cons.mp hmL with rfl | hmL
      · exact le_refl _
      · exact hs.1 m hmL
  · intro st0 i1 i2 i3 t1 t2 t3 h0 h1 h2 h3 h12 h23
    simp [MemStorage.getLatestMetrics, MemStorage.getSocialMetricsQ,
      MemStorage.createSocialMetric, h0, h1, h2, h3, hu, sortByCreatedDesc,
      insertByDesc, h12, h23]

/-- C6 witness: three inserts for url `a` at times 1 < 2 < 3; the latest is
the third record. -/
theorem store_query_and_latest_witness :
    (((stEmpty.createSocialMetric insA 1).2.createSocialMetric
        insA 2).2.createSocialMetric insA 3).2.getLatestMetrics "a" =
      some ((((stEmpty.createSocialMetric insA 1).2.createSocialMetric
        insA 2).2.createSocialMetric insA 3).1) :=
  (store_query_and_latest stEmpty none none "a" (by decide)
      (fun x hx => Option.noConfusion hx) (fun x hx => Option.noConfusion hx)).2.2.2.2.2
    stEmpty insA insA insA 1 2 3 rfl rfl rfl rfl (by decide) (by decide)
